import Mathlib

/-!
ELL sparse matrix on the HIP backend (`src/base/hip/hip_matrix_ell.cpp`).

A shallow embedding of `HIPAcceleratorMatrixELL<ValueType>`.

Conventions of the embedding:

* A C++ `int` is an `Int` in the range `[-2^31, 2^31)`.  The products
  `max_row * nrow` that the source computes in `int` arithmetic wrap around
  modulo `2^32` (`toInt32`), as they do on the target hardware; a comparison
  of two `int` expressions compares their `int` values.
* `ValueType` is a commutative ring `α`, so arithmetic is exact.
* A device pointer is an `Option (List _)`: `none` is `NULL`, `some xs` is a
  pointer to a device array whose contents are `xs`.
* `assert` failures, `FATAL_ERROR` and failing `CHECK_HIP_ERROR` /
  `CHECK_HIPSPARSE_ERROR` all end the process: a member function returns
  `none` for them and `some` of the new state otherwise.
* The backend descriptor and the hipSPARSE matrix descriptor are set up once
  in the constructor and never read by the code modelled here; they are left
  out of the state.
-/

namespace rocalution

/-! ## Data model -/

/-- Matrix format tags returned by `get_mat_format()`; only `ELL` and `CSR`
are told apart by this file, every other format is `OTHER n`. -/
inductive MatrixFormat where
  | ELL
  | CSR
  | OTHER (n : Nat)
  deriving DecidableEq

/-- The raw ELL arrays `mat_` of a matrix: `val`, `col` and `max_row`. -/
structure MatrixELL (α : Type) where
  val : Option (List α)
  col : Option (List Int)
  max_row : Int
  deriving DecidableEq

/-- State of a `HIPAcceleratorMatrixELL`: the ELL arrays and the shape fields
`nrow_`, `ncol_`, `nnz_` inherited from `BaseMatrix`. -/
structure HIPAcceleratorMatrixELL (α : Type) where
  mat_ : MatrixELL α
  nrow_ : Int
  ncol_ : Int
  nnz_ : Int
  deriving DecidableEq

/-- State of a `HostMatrixELL` (declared in `host_matrix_ell.hpp`): the same
fields, living in host memory. -/
structure HostMatrixELL (α : Type) where
  mat_ : MatrixELL α
  nrow_ : Int
  ncol_ : Int
  nnz_ : Int
  deriving DecidableEq

/-- The raw CSR arrays of a matrix. -/
structure MatrixCSR (α : Type) where
  row_offset : List Int
  col : List Int
  val : List α
  deriving DecidableEq

/-- State of a `HIPAcceleratorMatrixCSR` as far as `ConvertFrom` reads it. -/
structure HIPAcceleratorMatrixCSR (α : Type) where
  mat_ : MatrixCSR α
  nrow_ : Int
  ncol_ : Int
  nnz_ : Int
  deriving DecidableEq

/-- A matrix seen through a `BaseMatrix` reference.  The constructors are the
outcomes of the `dynamic_cast`s in the source: an accelerator ELL matrix, an
accelerator CSR matrix, a host ELL matrix, or any other matrix (`isHost` says
whether it derives from `HostMatrix`). -/
inductive BaseMatrix (α : Type) where
  | hipELL (m : HIPAcceleratorMatrixELL α)
  | hipCSR (m : HIPAcceleratorMatrixCSR α)
  | hostELL (m : HostMatrixELL α)
  | unknown (isHost : Bool) (format : MatrixFormat) (nnz nrow ncol : Int)
  deriving DecidableEq

/-- A vector seen through a `BaseVector` reference: an accelerator vector
(the `dynamic_cast` to `HIPAcceleratorVector` succeeds) or a host vector. -/
inductive BaseVector (α : Type) where
  | hip (vec_ : List α)
  | host (vec_ : List α)
  deriving DecidableEq

variable {α : Type}

/-- Result of `get_mat_format()`. -/
def BaseMatrix.get_mat_format : BaseMatrix α → MatrixFormat
  | .hipELL _ => .ELL
  | .hipCSR _ => .CSR
  | .hostELL _ => .ELL
  | .unknown _ f _ _ _ => f

/-- Result of `get_nnz()`. -/
def BaseMatrix.get_nnz : BaseMatrix α → Int
  | .hipELL m => m.nnz_
  | .hipCSR m => m.nnz_
  | .hostELL m => m.nnz_
  | .unknown _ _ nnz _ _ => nnz

/-- Result of `get_nrow()`. -/
def BaseMatrix.get_nrow : BaseMatrix α → Int
  | .hipELL m => m.nrow_
  | .hipCSR m => m.nrow_
  | .hostELL m => m.nrow_
  | .unknown _ _ _ nrow _ => nrow

/-- Result of `get_ncol()`. -/
def BaseMatrix.get_ncol : BaseMatrix α → Int
  | .hipELL m => m.ncol_
  | .hipCSR m => m.ncol_
  | .hostELL m => m.ncol_
  | .unknown _ _ _ _ ncol => ncol

/-- Result of `get_size()`. -/
def BaseVector.get_size : BaseVector α → Int
  | .hip v => (v.length : Int)
  | .host v => (v.length : Int)

/-- State left by the constructor taking a backend descriptor: `val` and
`col` are `NULL`, `max_row` is 0 and the shape fields are 0. -/
def HIPAcceleratorMatrixELL.fresh : HIPAcceleratorMatrixELL α :=
  { mat_ := { val := none, col := none, max_row := 0 }, nrow_ := 0, ncol_ := 0, nnz_ := 0 }

/-! ## Machine integers -/

/-- The value of an integer expression as a 32-bit two's-complement `int`:
the representative of `x` modulo `2^32` in `[-2^31, 2^31)`.  It is `x`
itself for every `x` in that range. -/
def toInt32 (x : Int) : Int := (x + 2147483648) % 4294967296 - 2147483648

/-! ## Helpers of the repository that are not part of this file -/

/-- Modelled from the spec: `free_hip` (hip_allocate_free) is not in the
sources at hand.  The spec says `Clear` "releases buffers"; releasing a
buffer leaves the handle `NULL`. -/
def free_hip {β : Type} (_ptr : Option (List β)) : Option (List β) := none

/-- Modelled from the spec: `allocate_hip` followed by `set_to_zero_hip`
(hip_allocate_free) is not in the sources at hand.  The spec says `Allocate`
"allocates `val`/`col` of length `nnz` and zero-initializes both". -/
def allocate_zero_hip {β : Type} [Zero β] (size : Int) : Option (List β) :=
  some (List.replicate size.toNat 0)

/-- Device copy of `count` elements, `hipMemcpy(dst, src, count * sizeof)`.
The call reports an error, which `CHECK_HIP_ERROR` turns into a fatal error,
when a pointer is `NULL` or an array is shorter than `count`; otherwise the
first `count` elements of `dst` are overwritten by those of `src`.  The
result is the new contents behind `dst`. -/
def hipMemcpy {β : Type} (dst src : Option (List β)) (count : Nat) : Option (List β) :=
  match dst, src with
  | some d, some s =>
      if count ≤ d.length ∧ count ≤ s.length then some (s.take count ++ d.drop count) else none
  | _, _ => none

/-! ## Allocation and ownership -/

/-- `HIPAcceleratorMatrixELL::Clear` (lines 112-126). -/
def Clear (this : HIPAcceleratorMatrixELL α) : HIPAcceleratorMatrixELL α :=
  if this.nnz_ > 0 then
    { mat_ := { val := free_hip this.mat_.val, col := free_hip this.mat_.col,
                max_row := this.mat_.max_row },
      nrow_ := 0, ncol_ := 0, nnz_ := 0 }
  else this

/-- `HIPAcceleratorMatrixELL::AllocateELL` (lines 80-110).  The assertion
`nnz == max_row * nrow` compares `int` values, the product being computed
in `int` arithmetic. -/
def AllocateELL [Zero α] (this : HIPAcceleratorMatrixELL α) (nnz nrow ncol max_row : Int) :
    Option (HIPAcceleratorMatrixELL α) :=
  if nnz ≥ 0 ∧ ncol ≥ 0 ∧ nrow ≥ 0 ∧ max_row ≥ 0 then
    let this1 := if this.nnz_ > 0 then Clear this else this
    if nnz > 0 then
      if toInt32 nnz = toInt32 (max_row * nrow) then
        some { mat_ := { val := allocate_zero_hip nnz, col := allocate_zero_hip nnz,
                         max_row := max_row },
               nrow_ := nrow, ncol_ := ncol, nnz_ := nnz }
      else none
    else some this1
  else none

/-- `HIPAcceleratorMatrixELL::SetDataPtrELL` (lines 128-152).  `col` and
`val` are the handles `*col` and `*val` passed by the caller. -/
def SetDataPtrELL (this : HIPAcceleratorMatrixELL α) (col : Option (List Int))
    (val : Option (List α)) (nnz nrow ncol max_row : Int) :
    Option (HIPAcceleratorMatrixELL α) :=
  if col.isSome ∧ val.isSome ∧ nnz > 0 ∧ nrow > 0 ∧ ncol > 0 ∧ max_row > 0
      ∧ toInt32 (max_row * nrow) = toInt32 nnz then
    let _this1 := Clear this
    some { mat_ := { val := val, col := col, max_row := max_row },
           nrow_ := nrow, ncol_ := ncol, nnz_ := nnz }
  else none

/-- `HIPAcceleratorMatrixELL::LeaveDataPtrELL` (lines 154-179).  Returns the
new state together with the values written to `*col`, `*val` and `max_row`. -/
def LeaveDataPtrELL (this : HIPAcceleratorMatrixELL α) :
    Option (HIPAcceleratorMatrixELL α × Option (List Int) × Option (List α) × Int) :=
  if this.nrow_ > 0 ∧ this.ncol_ > 0 ∧ this.nnz_ > 0 ∧ this.mat_.max_row > 0
      ∧ toInt32 (this.mat_.max_row * this.nrow_) = toInt32 this.nnz_ then
    some ({ mat_ := { val := none, col := none, max_row := 0 },
            nrow_ := 0, ncol_ := 0, nnz_ := 0 },
          this.mat_.col, this.mat_.val, this.mat_.max_row)
  else none

/-! ## Copies -/

/-- Modelled from the spec: `HostMatrixELL::Clear` (host_matrix_ell) is not
in the sources at hand.  The spec's `Clear` "releases buffers if `nnz > 0`;
resets all shape fields to zero". -/
def HostMatrixELL.Clear (this : HostMatrixELL α) : HostMatrixELL α :=
  if this.nnz_ > 0 then
    { mat_ := { val := none, col := none, max_row := 0 }, nrow_ := 0, ncol_ := 0, nnz_ := 0 }
  else this

/-- Modelled from the spec: `HostMatrixELL::AllocateELL` (host_matrix_ell)
is not in the sources at hand.  The spec's `Allocate` has preconditions
`nnz, nrow, ncol, max_row ≥ 0` and, if `nnz > 0`, `nnz == max_row * nrow`;
it clears any existing allocation, allocates zero-initialised `val`/`col` of
length `nnz`, and is a no-op (stays empty) when `nnz == 0`. -/
def HostMatrixELL.AllocateELL [Zero α] (this : HostMatrixELL α) (nnz nrow ncol max_row : Int) :
    Option (HostMatrixELL α) :=
  if nnz ≥ 0 ∧ ncol ≥ 0 ∧ nrow ≥ 0 ∧ max_row ≥ 0 then
    let this1 := this.Clear
    if nnz > 0 then
      if nnz = max_row * nrow then
        some { mat_ := { val := some (List.replicate nnz.toNat 0),
                         col := some (List.replicate nnz.toNat 0), max_row := max_row },
               nrow_ := nrow, ncol_ := ncol, nnz_ := nnz }
      else none
    else some this1
  else none

/-- `HIPAcceleratorMatrixELL::CopyFromHost` (lines 184-226).  `src` is a
matrix for which the cast to `HostMatrix` succeeded. -/
def CopyFromHost [Zero α] (this : HIPAcceleratorMatrixELL α) (src : BaseMatrix α) :
    Option (HIPAcceleratorMatrixELL α) :=
  if MatrixFormat.ELL = src.get_mat_format then
    match src with
    | .hostELL cast_mat =>
        match (if this.nnz_ = 0 then
                 AllocateELL this cast_mat.nnz_ cast_mat.nrow_ cast_mat.ncol_ cast_mat.mat_.max_row
               else some this) with
        | none => none
        | some this1 =>
            if this1.nnz_ = src.get_nnz ∧ this1.nrow_ = src.get_nrow
                ∧ this1.ncol_ = src.get_ncol then
              if this1.nnz_ > 0 then
                match hipMemcpy this1.mat_.col cast_mat.mat_.col this1.nnz_.toNat,
                      hipMemcpy this1.mat_.val cast_mat.mat_.val this1.nnz_.toNat with
                | some c, some v =>
                    some { this1 with mat_ := { this1.mat_ with col := some c, val := some v } }
                | _, _ => none
              else some this1
            else none
    | _ => none
  else none

/-- `HIPAcceleratorMatrixELL::CopyFrom` (lines 274-326). -/
def CopyFrom [Zero α] (this : HIPAcceleratorMatrixELL α) (src : BaseMatrix α) :
    Option (HIPAcceleratorMatrixELL α) :=
  if MatrixFormat.ELL = src.get_mat_format then
    match src with
    | .hipELL hip_cast_mat =>
        match (if this.nnz_ = 0 then
                 AllocateELL this hip_cast_mat.nnz_ hip_cast_mat.nrow_ hip_cast_mat.ncol_
                   hip_cast_mat.mat_.max_row
               else some this) with
        | none => none
        | some this1 =>
            if this1.nnz_ = src.get_nnz ∧ this1.nrow_ = src.get_nrow
                ∧ this1.ncol_ = src.get_ncol then
              if this1.nnz_ > 0 then
                match hipMemcpy this1.mat_.col hip_cast_mat.mat_.col this1.nnz_.toNat,
                      hipMemcpy this1.mat_.val hip_cast_mat.mat_.val this1.nnz_.toNat with
                | some c, some v =>
                    some { this1 with mat_ := { this1.mat_ with col := some c, val := some v } }
                | _, _ => none
              else some this1
            else none
    | .hostELL host_cast_mat => CopyFromHost this (.hostELL host_cast_mat)
    | .unknown true f nnz nrow ncol => CopyFromHost this (.unknown true f nnz nrow ncol)
    | _ => none
  else none

/-- `HIPAcceleratorMatrixELL::CopyToHost` (lines 228-272).  `dst` is a matrix
for which the cast to `HostMatrix` succeeded; the result is the new `dst`. -/
def CopyToHost [Zero α] (this : HIPAcceleratorMatrixELL α) (dst : BaseMatrix α) :
    Option (BaseMatrix α) :=
  if MatrixFormat.ELL = dst.get_mat_format then
    match dst with
    | .hostELL cast_mat =>
        match (if cast_mat.nnz_ = 0 then
                 cast_mat.AllocateELL this.nnz_ this.nrow_ this.ncol_ this.mat_.max_row
               else some cast_mat) with
        | none => none
        | some dst1 =>
            if this.nnz_ = dst1.nnz_ ∧ this.nrow_ = dst1.nrow_ ∧ this.ncol_ = dst1.ncol_ then
              if this.nnz_ > 0 then
                match hipMemcpy dst1.mat_.col this.mat_.col this.nnz_.toNat,
                      hipMemcpy dst1.mat_.val this.mat_.val this.nnz_.toNat with
                | some c, some v =>
                    some (.hostELL
                      { dst1 with mat_ := { dst1.mat_ with col := some c, val := some v } })
                | _, _ => none
              else some (.hostELL dst1)
            else none
    | _ => none
  else none

/-- `HIPAcceleratorMatrixELL::CopyTo` (lines 328-383); the result is the new
`dst`. -/
def CopyTo [Zero α] (this : HIPAcceleratorMatrixELL α) (dst : BaseMatrix α) :
    Option (BaseMatrix α) :=
  if MatrixFormat.ELL = dst.get_mat_format then
    match dst with
    | .hipELL hip_cast_mat =>
        match (if this.nnz_ = 0 then
                 AllocateELL hip_cast_mat hip_cast_mat.nnz_ hip_cast_mat.nrow_
                   hip_cast_mat.ncol_ hip_cast_mat.mat_.max_row
               else some hip_cast_mat) with
        | none => none
        | some dst1 =>
            if this.nnz_ = dst1.nnz_ ∧ this.nrow_ = dst1.nrow_ ∧ this.ncol_ = dst1.ncol_ then
              if this.nnz_ > 0 then
                match hipMemcpy dst1.mat_.col this.mat_.col this.nnz_.toNat,
                      hipMemcpy dst1.mat_.val this.mat_.val this.nnz_.toNat with
                | some c, some v =>
                    some (.hipELL
                      { dst1 with mat_ := { dst1.mat_ with col := some c, val := some v } })
                | _, _ => none
              else some (.hipELL dst1)
            else none
    | .hostELL host_cast_mat => CopyToHost this (.hostELL host_cast_mat)
    | .unknown true f nnz nrow ncol => CopyToHost this (.unknown true f nnz nrow ncol)
    | _ => none
  else none

/-- `HIPAcceleratorMatrixELL::CopyToHostAsync` (lines 429-473).  The
transfers are enqueued with `hipMemcpyAsync`; the state described is the one
after they have completed, which is that of `CopyToHost`. -/
def CopyToHostAsync [Zero α] (this : HIPAcceleratorMatrixELL α) (dst : BaseMatrix α) :
    Option (BaseMatrix α) :=
  if MatrixFormat.ELL = dst.get_mat_format then
    match dst with
    | .hostELL cast_mat =>
        match (if cast_mat.nnz_ = 0 then
                 cast_mat.AllocateELL this.nnz_ this.nrow_ this.ncol_ this.mat_.max_row
               else some cast_mat) with
        | none => none
        | some dst1 =>
            if this.nnz_ = dst1.nnz_ ∧ this.nrow_ = dst1.nrow_ ∧ this.ncol_ = dst1.ncol_ then
              if this.nnz_ > 0 then
                match hipMemcpy dst1.mat_.col this.mat_.col this.nnz_.toNat,
                      hipMemcpy dst1.mat_.val this.mat_.val this.nnz_.toNat with
                | some c, some v =>
                    some (.hostELL
                      { dst1 with mat_ := { dst1.mat_ with col := some c, val := some v } })
                | _, _ => none
              else some (.hostELL dst1)
            else none
    | _ => none
  else none

/-- `HIPAcceleratorMatrixELL::CopyToAsync` (lines 529-584); the result is the
new `dst`.  The accelerator branch uses the blocking `hipMemcpy`. -/
def CopyToAsync [Zero α] (this : HIPAcceleratorMatrixELL α) (dst : BaseMatrix α) :
    Option (BaseMatrix α) :=
  if MatrixFormat.ELL = dst.get_mat_format then
    match dst with
    | .hipELL hip_cast_mat =>
        match (if this.nnz_ = 0 then
                 AllocateELL hip_cast_mat hip_cast_mat.nnz_ hip_cast_mat.nrow_
                   hip_cast_mat.ncol_ hip_cast_mat.mat_.max_row
               else some hip_cast_mat) with
        | none => none
        | some dst1 =>
            if this.nnz_ = dst1.nnz_ ∧ this.nrow_ = dst1.nrow_ ∧ this.ncol_ = dst1.ncol_ then
              if this.nnz_ > 0 then
                match hipMemcpy dst1.mat_.col this.mat_.col this.nnz_.toNat,
                      hipMemcpy dst1.mat_.val this.mat_.val this.nnz_.toNat with
                | some c, some v =>
                    some (.hipELL
                      { dst1 with mat_ := { dst1.mat_ with col := some c, val := some v } })
                | _, _ => none
              else some (.hipELL dst1)
            else none
    | .hostELL host_cast_mat => CopyToHostAsync this (.hostELL host_cast_mat)
    | .unknown true f nnz nrow ncol => CopyToHostAsync this (.unknown true f nnz nrow ncol)
    | _ => none
  else none

/-! ## hipSPARSE routines used by the conversion and the product -/

/-- Number of entries of row `r` of a CSR matrix:
`row_offset[r+1] - row_offset[r]`. -/
def csrRowLen (row_offset : List Int) (r : Nat) : Int :=
  row_offset.getD (r + 1) 0 - row_offset.getD r 0

/-- Modelled from the spec: `hipsparseXcsr2ellWidth` (hip_sparse) is not in
the sources at hand.  The spec says: "Compute `max_row` = the maximum number
of true nonzeros in any single row (`row_offset[r+1] - row_offset[r]`
maximized over all rows)".  With no rows the width is 0. -/
def hipsparseXcsr2ellWidth (m : Int) (csr_row_ptr : List Int) : Int :=
  match (List.range m.toNat).map (csrRowLen csr_row_ptr) with
  | [] => 0
  | l :: ls => ls.foldl max l

/-- Position of slot `el` of row `row` in the flat ELL arrays, `ELL_IND` of
`matrix_formats_ind.hpp`.  Modelled from the spec: the header is not in the
sources at hand; the spec only asks that "slot `k` of row `r` maps to a
fixed position in the flat arrays", applied uniformly.  The column-major
packing is taken here. -/
def ELL_IND (row el nrow _max_row : Nat) : Nat := el * nrow + row

/-- Value that the conversion stores at flat position `p` of the ELL `val`
array: position `p` is slot `p / m` of row `p % m`; the first
`csrRowLen r` slots of row `r` take the row's CSR values in order, the
remaining slots are padding with value 0. -/
def ellSlotVal [Zero α] (m : Nat) (csr_val : List α) (csr_row_ptr : List Int) (p : Nat) : α :=
  if ((p / m : Nat) : Int) < csrRowLen csr_row_ptr (p % m) then
    csr_val.getD ((csr_row_ptr.getD (p % m) 0).toNat + p / m) 0
  else 0

/-- Column index that the conversion stores at flat position `p` of the ELL
`col` array; padding slots take column 0. -/
def ellSlotCol (m : Nat) (csr_col_ind : List Int) (csr_row_ptr : List Int) (p : Nat) : Int :=
  if ((p / m : Nat) : Int) < csrRowLen csr_row_ptr (p % m) then
    csr_col_ind.getD ((csr_row_ptr.getD (p % m) 0).toNat + p / m) 0
  else 0

/-- Modelled from the spec: `hipsparseTcsr2ell` (hip_sparse) is not in the
sources at hand.  The spec says: "For each row `r`, copy its true (column,
value) pairs into the first `k_r` slots reserved for that row, in the same
relative order as the CSR source" and "Pad the remaining `max_row − k_r`
slots of row `r` with value 0 and a column index within `[0, ncol)` (e.g.
0)".  The routine fails when an output buffer is `NULL` or shorter than
`ell_width * m`; otherwise it returns the new contents of the output
buffers `(ell_val, ell_col_ind)`. -/
def hipsparseTcsr2ell [Zero α] (m : Int) (csr_val : List α) (csr_row_ptr csr_col_ind : List Int)
    (ell_width : Int) (ell_val : Option (List α)) (ell_col_ind : Option (List Int)) :
    Option (List α × List Int) :=
  match ell_val, ell_col_ind with
  | some v, some c =>
      if ell_width.toNat * m.toNat ≤ v.length ∧ ell_width.toNat * m.toNat ≤ c.length then
        some ((List.range (ell_width.toNat * m.toNat)).map (ellSlotVal m.toNat csr_val csr_row_ptr)
                ++ v.drop (ell_width.toNat * m.toNat),
              (List.range (ell_width.toNat * m.toNat)).map
                  (ellSlotCol m.toNat csr_col_ind csr_row_ptr)
                ++ c.drop (ell_width.toNat * m.toNat))
      else none
  | _, _ => none

/-- Row `r` of the ELL product: the sum over all `max_row` slots of
`val[slot] * x[col[slot]]`. -/
def ellRowDot [CommRing α] (m max_row : Nat) (val : List α) (col : List Int) (x : List α)
    (r : Nat) : α :=
  ((List.range max_row).map (fun k =>
      val.getD (ELL_IND r k m max_row) 0
        * x.getD (col.getD (ELL_IND r k m max_row) 0).toNat 0)).sum

/-- Modelled from the spec: `hipsparseTellmv` (hip_sparse) is not in the
sources at hand.  It computes `y := alpha * A * x + beta * y` where, per the
spec, `A * x` is "for each row `r`, the sum over all `max_row` slots of
`val[slot]·x[col[slot]]`".  The routine fails when a matrix buffer is
`NULL`; otherwise it returns the new contents of `y`. -/
def hipsparseTellmv [CommRing α] (m _n : Int) (alpha : α) (ell_val : Option (List α))
    (ell_col_ind : Option (List Int)) (ell_width : Int) (x : List α) (beta : α) (y : List α) :
    Option (List α) :=
  match ell_val, ell_col_ind with
  | some v, some c =>
      some ((List.range m.toNat).map (fun r =>
              alpha * ellRowDot m.toNat ell_width.toNat v c x r + beta * y.getD r 0)
            ++ y.drop m.toNat)
  | _, _ => none

/-! ## Conversion and product -/

/-- `HIPAcceleratorMatrixELL::ConvertFrom` (lines 586-650).  The result is
the returned flag together with the new state.  `mat` is a matrix object
other than `this`: for the self-conversion `A.ConvertFrom(A)` the leading
`Clear()` empties the source as well, `get_nnz() == 0` holds and the call
returns `true` in state `Clear A`. -/
def ConvertFrom [Zero α] (this : HIPAcceleratorMatrixELL α) (mat : BaseMatrix α) :
    Option (Bool × HIPAcceleratorMatrixELL α) :=
  let this0 := Clear this
  if mat.get_nnz = 0 then some (true, this0)
  else
    match mat with
    | .hipELL cast_mat_ell =>
        match CopyFrom this0 (.hipELL cast_mat_ell) with
        | some this1 => some (true, this1)
        | none => none
    | .hipCSR cast_mat_csr =>
        let this1 := Clear this0
        if cast_mat_csr.nrow_ > 0 ∧ cast_mat_csr.ncol_ > 0 ∧ cast_mat_csr.nnz_ > 0 then
          let nrow := cast_mat_csr.nrow_
          let this2 : HIPAcceleratorMatrixELL α :=
            { this1 with mat_ := { this1.mat_ with
                max_row := hipsparseXcsr2ellWidth nrow cast_mat_csr.mat_.row_offset } }
          let ell_nnz := toInt32 (this2.mat_.max_row * nrow)
          match AllocateELL this2 ell_nnz nrow cast_mat_csr.ncol_ this2.mat_.max_row with
          | none => none
          | some this3 =>
              match hipsparseTcsr2ell nrow cast_mat_csr.mat_.val cast_mat_csr.mat_.row_offset
                      cast_mat_csr.mat_.col this3.mat_.max_row this3.mat_.val this3.mat_.col with
              | none => none
              | some (v, c) =>
                  some (true,
                    { mat_ := { val := some v, col := some c, max_row := this3.mat_.max_row },
                      nrow_ := cast_mat_csr.nrow_, ncol_ := cast_mat_csr.ncol_,
                      nnz_ := ell_nnz })
        else none
    | _ => some (false, this0)

/-- `HIPAcceleratorMatrixELL::Apply` (lines 652-684); the result is the new
`out`. -/
def Apply [CommRing α] (this : HIPAcceleratorMatrixELL α) (inp out : BaseVector α) :
    Option (BaseVector α) :=
  if this.nnz_ > 0 then
    if inp.get_size ≥ 0 ∧ out.get_size ≥ 0 ∧ inp.get_size = this.ncol_
        ∧ out.get_size = this.nrow_ then
      match inp, out with
      | .hip cast_in, .hip cast_out =>
          match hipsparseTellmv this.nrow_ this.ncol_ 1 this.mat_.val this.mat_.col
                  this.mat_.max_row cast_in 0 cast_out with
          | some y => some (.hip y)
          | none => none
      | _, _ => none
    else none
  else some out

/-- `HIPAcceleratorMatrixELL::ApplyAdd` (lines 686-718); the result is the
new `out`. -/
def ApplyAdd [CommRing α] (this : HIPAcceleratorMatrixELL α) (inp : BaseVector α) (scalar : α)
    (out : BaseVector α) : Option (BaseVector α) :=
  if this.nnz_ > 0 then
    if inp.get_size ≥ 0 ∧ out.get_size ≥ 0 ∧ inp.get_size = this.ncol_
        ∧ out.get_size = this.nrow_ then
      match inp, out with
      | .hip cast_in, .hip cast_out =>
          match hipsparseTellmv this.nrow_ this.ncol_ scalar this.mat_.val this.mat_.col
                  this.mat_.max_row cast_in 1 cast_out with
          | some y => some (.hip y)
          | none => none
      | _, _ => none
    else none
  else some out

/-! ## The 3x3 scenario -/

/-- The CSR matrix of the scenario: row 0 = (col 0, 1), row 1 = (col 0, 2),
(col 1, 3), row 2 = (col 2, 4). -/
def csr3 : HIPAcceleratorMatrixCSR Int :=
  { mat_ := { row_offset := [0, 1, 3, 4], col := [0, 0, 1, 2], val := [1, 2, 3, 4] },
    nrow_ := 3, ncol_ := 3, nnz_ := 4 }

/-- The ELL matrix that the conversion builds from `csr3`. -/
def ell3 : HIPAcceleratorMatrixELL Int :=
  { mat_ := { val := some [1, 2, 4, 0, 3, 0], col := some [0, 0, 2, 0, 1, 0], max_row := 2 },
    nrow_ := 3, ncol_ := 3, nnz_ := 6 }

/-- A zero-filled 2x5 container of width 3, as left by
`AllocateELL(6, 2, 5, 3)`. -/
def ell2x5 : HIPAcceleratorMatrixELL Int :=
  { mat_ := { val := some [0, 0, 0, 0, 0, 0], col := some [0, 0, 0, 0, 0, 0], max_row := 3 },
    nrow_ := 2, ncol_ := 5, nnz_ := 6 }

/-- A 2 x 2^30 CSR matrix whose first row is dense (columns 0, 1, ...,
2^30 - 1, all values 1) and whose second row is empty: 2^30 nonzeros, row
width 2^30, so that `max_row * nrow = 2^31` does not fit in an `int`. -/
def csrBig : HIPAcceleratorMatrixCSR Int :=
  { mat_ := { row_offset := [0, 1073741824, 1073741824],
              col := (List.range 1073741824).map Int.ofNat,
              val := List.replicate 1073741824 1 },
    nrow_ := 2, ncol_ := 1073741824, nnz_ := 1073741824 }

/-! ## Specification-side notions -/

/-- A valid CSR row-offset array: `nrow + 1` entries, starting at 0, ending
at `nnz`, non-decreasing. -/
def ValidRowOffsets (csr : HIPAcceleratorMatrixCSR α) : Prop :=
  csr.mat_.row_offset.length = csr.nrow_.toNat + 1
    ∧ csr.mat_.row_offset.getD 0 0 = 0
    ∧ csr.mat_.row_offset.getD csr.nrow_.toNat 0 = csr.nnz_
    ∧ ∀ r < csr.nrow_.toNat, csr.mat_.row_offset.getD r 0 ≤ csr.mat_.row_offset.getD (r + 1) 0

instance (csr : HIPAcceleratorMatrixCSR α) : Decidable (ValidRowOffsets csr) := by
  unfold ValidRowOffsets
  infer_instance

/-- A well-formed CSR matrix: `nnz > 0`, valid row offsets, `nnz` column
indices and values, every column index in `[0, ncol)`. -/
def WellFormedCSR (csr : HIPAcceleratorMatrixCSR α) : Prop :=
  csr.nnz_ > 0 ∧ ValidRowOffsets csr
    ∧ csr.mat_.col.length = csr.nnz_.toNat ∧ csr.mat_.val.length = csr.nnz_.toNat
    ∧ ∀ c ∈ csr.mat_.col, 0 ≤ c ∧ c < csr.ncol_

instance (csr : HIPAcceleratorMatrixCSR α) : Decidable (WellFormedCSR csr) := by
  unfold WellFormedCSR
  infer_instance

/-- Row `r` of the exact CSR product `A * x`: the sum over the entries `j`
of row `r`, `row_offset[r] ≤ j < row_offset[r+1]`, of `val[j] * x[col[j]]`. -/
def csrRowDot [CommRing α] (csr : HIPAcceleratorMatrixCSR α) (x : List α) (r : Nat) : α :=
  ((List.range' (csr.mat_.row_offset.getD r 0).toNat
      (csrRowLen csr.mat_.row_offset r).toNat).map
    (fun j => csr.mat_.val.getD j 0 * x.getD (csr.mat_.col.getD j 0).toNat 0)).sum

/-- C6: on any container state, `SetDataPtrELL` with non-null `col` and
`val` handles, `nnz`, `nrow`, `ncol`, `max_row` all positive and
`nnz == max_row * nrow`, followed immediately by `LeaveDataPtrELL`, returns
from both calls, hands back exactly the adopted `col` and `val` handles and
the adopted `max_row`, and leaves the container empty: `nnz`, `nrow`, `ncol`
and `max_row` are 0 and both internal handles are `NULL`. -/
theorem SetDataPtrELL_LeaveDataPtrELL (this : HIPAcceleratorMatrixELL α)
    (col : Option (List Int)) (val : Option (List α)) (nnz nrow ncol max_row : Int)
    (hcol : col ≠ none) (hval : val ≠ none) (hnnz : nnz > 0) (hnrow : nrow > 0)
    (hncol : ncol > 0) (hmax : max_row > 0) (hshape : nnz = max_row * nrow) :
    ∃ t u, SetDataPtrELL this col val nnz nrow ncol max_row = some t
      ∧ LeaveDataPtrELL t = some (u, col, val, max_row)
      ∧ u.nnz_ = 0 ∧ u.nrow_ = 0 ∧ u.ncol_ = 0 ∧ u.mat_.max_row = 0
      ∧ u.mat_.col = none ∧ u.mat_.val = none := by
  have hc : col.isSome = true := Option.isSome_iff_ne_none.mpr hcol
  have hv : val.isSome = true := Option.isSome_iff_ne_none.mpr hval
  refine ⟨{ mat_ := { val := val, col := col, max_row := max_row },
            nrow_ := nrow, ncol_ := ncol, nnz_ := nnz },
          { mat_ := { val := none, col := none, max_row := 0 },
            nrow_ := 0, ncol_ := 0, nnz_ := 0 }, ?_, ?_, rfl, rfl, rfl, rfl, rfl, rfl⟩
  · simp only [SetDataPtrELL]
    rw [if_pos ⟨hc, hv, hnnz, hnrow, hncol, hmax, congrArg toInt32 hshape.symm⟩]
  · simp only [LeaveDataPtrELL]
    rw [if_pos ⟨hnrow, hncol, hnnz, hmax, congrArg toInt32 hshape.symm⟩]

/-- Instance of C6: buffers of two slots adopted by the container that holds
the 3x3 scenario. -/
theorem SetDataPtrELL_LeaveDataPtrELL_witness :
    ∃ t u, SetDataPtrELL ell3 (some [0, 3]) (some [5, 6]) 2 1 4 2 = some t
      ∧ LeaveDataPtrELL t = some (u, some [0, 3], some [5, 6], 2)
      ∧ u.nnz_ = 0 ∧ u.nrow_ = 0 ∧ u.ncol_ = 0 ∧ u.mat_.max_row = 0
      ∧ u.mat_.col = none ∧ u.mat_.val = none :=
  SetDataPtrELL_LeaveDataPtrELL ell3 (some [0, 3]) (some [5, 6]) 2 1 4 2
    (by decide) (by decide) (by decide) (by decide) (by decide) (by decide) (by decide)

/-! ## Clear -/

/-- C8: `Clear` on the container built from the 3x3 scenario (a reachable,
non-empty state with `max_row = 2`) resets `nnz`, `nrow` and `ncol` to 0 and
nulls the buffers, but leaves `max_row` at 2, whereas `LeaveDataPtrELL` on
the same state resets `max_row` to 0 as well. -/
theorem Clear_keeps_max_row :
    ConvertFrom HIPAcceleratorMatrixELL.fresh (.hipCSR csr3) = some (true, ell3)
      ∧ (Clear ell3).nnz_ = 0 ∧ (Clear ell3).nrow_ = 0 ∧ (Clear ell3).ncol_ = 0
      ∧ (Clear ell3).mat_.val = none ∧ (Clear ell3).mat_.col = none
      ∧ (Clear ell3).mat_.max_row = 2
      ∧ (LeaveDataPtrELL ell3).map (fun r => r.1.mat_.max_row) = some 0 := by
  decide

/-! ## Copies between accelerator containers -/

/-- C4: for a non-empty accelerator ELL source (`nnz > 0`,
`nnz == max_row * nrow`, non-negative dimensions, `col` and `val` buffers of
`nnz` elements) and an empty destination (`nnz == 0`), `CopyFrom` returns
and leaves the destination equal to the source: same `nnz`, `nrow`, `ncol`,
`max_row`, and the same `col` and `val` contents.  The source is taken by
constant reference and is not part of the result. -/
theorem CopyFrom_empty_destination [Zero α] (this src : HIPAcceleratorMatrixELL α)
    (c : List Int) (v : List α)
    (hthis : this.nnz_ = 0) (hnnz : src.nnz_ > 0)
    (hshape : src.nnz_ = src.mat_.max_row * src.nrow_)
    (hnrow : 0 ≤ src.nrow_) (hncol : 0 ≤ src.ncol_)
    (hcol : src.mat_.col = some c) (hval : src.mat_.val = some v)
    (hclen : c.length = src.nnz_.toNat) (hvlen : v.length = src.nnz_.toNat) :
    ∃ t, CopyFrom this (.hipELL src) = some t
      ∧ t.nnz_ = src.nnz_ ∧ t.nrow_ = src.nrow_ ∧ t.ncol_ = src.ncol_
      ∧ t.mat_.max_row = src.mat_.max_row
      ∧ t.mat_.col = some c ∧ t.mat_.val = some v := by
  have hmax : 0 ≤ src.mat_.max_row := by
    by_contra hneg
    push_neg at hneg
    have : src.mat_.max_row * src.nrow_ ≤ 0 :=
      mul_nonpos_of_nonpos_of_nonneg hneg.le hnrow
    omega
  have halloc : AllocateELL this src.nnz_ src.nrow_ src.ncol_ src.mat_.max_row
      = some { mat_ := { val := some (List.replicate src.nnz_.toNat 0),
                         col := some (List.replicate src.nnz_.toNat 0),
                         max_row := src.mat_.max_row },
               nrow_ := src.nrow_, ncol_ := src.ncol_, nnz_ := src.nnz_ } := by
    simp only [AllocateELL, allocate_zero_hip]
    rw [if_pos ⟨hnnz.le, hncol, hnrow, hmax⟩, if_pos hnnz, if_pos (congrArg toInt32 hshape)]
  refine ⟨{ mat_ := { val := some v, col := some c, max_row := src.mat_.max_row },
            nrow_ := src.nrow_, ncol_ := src.ncol_, nnz_ := src.nnz_ }, ?_,
          rfl, rfl, rfl, rfl, rfl, rfl⟩
  simp only [CopyFrom, BaseMatrix.get_mat_format, BaseMatrix.get_nnz, BaseMatrix.get_nrow,
    BaseMatrix.get_ncol, if_pos hthis, halloc, hcol, hval, hipMemcpy]
  simp [hnnz, hclen, hvlen]

/-- Instance of C4: the container of the 3x3 scenario copied into a freshly
constructed container. -/
theorem CopyFrom_empty_destination_witness :
    ∃ t, CopyFrom HIPAcceleratorMatrixELL.fresh (.hipELL ell3) = some t
      ∧ t.nnz_ = 6 ∧ t.nrow_ = 3 ∧ t.ncol_ = 3 ∧ t.mat_.max_row = 2
      ∧ t.mat_.col = some [0, 0, 2, 0, 1, 0] ∧ t.mat_.val = some [1, 2, 4, 0, 3, 0] :=
  CopyFrom_empty_destination HIPAcceleratorMatrixELL.fresh ell3 [0, 0, 2, 0, 1, 0]
    [1, 2, 4, 0, 3, 0] (by decide) (by decide) (by decide) (by decide) (by decide)
    rfl rfl (by decide) (by decide)

/-- C5: with the non-empty container of the 3x3 scenario as source and a
freshly constructed (empty) accelerator ELL destination, `CopyTo` and
`CopyToAsync` do not allocate the destination and end in a fatal error at
the shape assertion, while `CopyFrom` in the other direction allocates the
destination and copies the contents. -/
theorem CopyTo_empty_destination_fatal :
    CopyTo ell3 (.hipELL HIPAcceleratorMatrixELL.fresh) = none
      ∧ CopyToAsync ell3 (.hipELL HIPAcceleratorMatrixELL.fresh) = none
      ∧ CopyFrom HIPAcceleratorMatrixELL.fresh (.hipELL ell3) = some ell3 := by
  decide

/-! ## Conversion from an unrecognised source -/

/-- C9, as stated, fails: an empty host CSR matrix is a source the converter
does not recognise, and `ConvertFrom` returns `true` for it because of the
`get_nnz() == 0` shortcut. -/
theorem ConvertFrom_unrecognised_empty_returns_true :
    ConvertFrom (HIPAcceleratorMatrixELL.fresh : HIPAcceleratorMatrixELL Int)
        (.unknown true .CSR 0 0 0)
      = some (true, HIPAcceleratorMatrixELL.fresh) := by
  decide

/-- C9, amended: for every source that is neither an accelerator ELL nor an
accelerator CSR matrix, on any destination state, `ConvertFrom` returns
without a fatal error: it returns `false` when the source's nonzero count is
not 0, and `true` when the source's nonzero count is 0. -/
theorem ConvertFrom_unrecognised_returns_false [Zero α] (this : HIPAcceleratorMatrixELL α)
    (mat : BaseMatrix α) (hell : ∀ m, mat ≠ .hipELL m) (hcsr : ∀ m, mat ≠ .hipCSR m) :
    (mat.get_nnz ≠ 0 → ConvertFrom this mat = some (false, Clear this))
      ∧ (mat.get_nnz = 0 → ConvertFrom this mat = some (true, Clear this)) := by
  constructor
  · intro hnnz
    cases mat with
    | hipELL m => exact absurd rfl (hell m)
    | hipCSR m => exact absurd rfl (hcsr m)
    | hostELL m => simp only [ConvertFrom, if_neg hnnz]
    | unknown isHost f nnz nrow ncol => simp only [ConvertFrom, if_neg hnnz]
  · intro hnnz
    simp only [ConvertFrom, if_pos hnnz]

/-- Instance of C9 amended: a host CSR matrix with four nonzeros, and an
empty host CSR matrix, offered to the container of the 3x3 scenario. -/
theorem ConvertFrom_unrecognised_returns_false_witness :
    ConvertFrom ell3 (.unknown true .CSR 4 3 3) = some (false, Clear ell3)
      ∧ ConvertFrom ell3 (.unknown true .CSR 0 0 0) = some (true, Clear ell3) :=
  ⟨(ConvertFrom_unrecognised_returns_false ell3 (.unknown true .CSR 4 3 3)
      (by simp) (by simp)).1 (by decide),
   (ConvertFrom_unrecognised_returns_false ell3 (.unknown true .CSR 0 0 0)
      (by simp) (by simp)).2 (by decide)⟩

/-- C10, as stated, fails: `ConvertFrom` on the non-empty container of the
3x3 scenario with a host CSR source returns `false` and leaves the
destination cleared, with `nnz = 0` instead of 6 and no buffers. -/
theorem ConvertFrom_failure_clears_destination :
    ∃ t, ConvertFrom ell3 (.unknown true .CSR 4 3 3) = some (false, t)
      ∧ ell3.nnz_ = 6 ∧ t.nnz_ = 0 ∧ t.mat_.val = none ∧ t ≠ ell3 :=
  ⟨Clear ell3, by decide, by decide, by decide, by decide, by decide⟩

/-- C10, amended: whenever `ConvertFrom` returns `false`, a destination that
was empty before the call (`nnz == 0`) is identical to what it was, and a
destination that was non-empty has been cleared: its `nnz`, `nrow` and
`ncol` are 0 and its `col` and `val` buffers are released. -/
theorem ConvertFrom_failure_destination [Zero α] (this t : HIPAcceleratorMatrixELL α)
    (mat : BaseMatrix α) (hfail : ConvertFrom this mat = some (false, t)) :
    (this.nnz_ = 0 → t = this)
      ∧ (this.nnz_ > 0 → t.nnz_ = 0 ∧ t.nrow_ = 0 ∧ t.ncol_ = 0
            ∧ t.mat_.col = none ∧ t.mat_.val = none) := by
  have ht : t = Clear this := by
    by_cases h0 : mat.get_nnz = 0
    · simp [ConvertFrom, h0] at hfail
    · cases mat with
      | hipELL m =>
          simp only [ConvertFrom, if_neg h0] at hfail
          cases hcopy : CopyFrom (Clear this) (.hipELL m) <;> simp [hcopy] at hfail
      | hipCSR m =>
          simp only [ConvertFrom, if_neg h0] at hfail
          split_ifs at hfail
          split at hfail
          · exact absurd hfail (by simp)
          · split at hfail <;> simp at hfail
      | hostELL m =>
          simp only [ConvertFrom, if_neg h0, Option.some.injEq, Prod.mk.injEq, true_and] at hfail
          exact hfail.symm
      | unknown isHost f nnz nrow ncol =>
          simp only [ConvertFrom, if_neg h0, Option.some.injEq, Prod.mk.injEq, true_and] at hfail
          exact hfail.symm
  subst ht
  constructor
  · intro h
    simp [Clear, h]
  · intro h
    simp [Clear, h, free_hip]

/-- Instance of C10 amended: the failing call on the container of the 3x3
scenario. -/
theorem ConvertFrom_failure_destination_witness :
    (ell3.nnz_ = 0 → Clear ell3 = ell3)
      ∧ (ell3.nnz_ > 0 → (Clear ell3).nnz_ = 0 ∧ (Clear ell3).nrow_ = 0
            ∧ (Clear ell3).ncol_ = 0
            ∧ (Clear ell3).mat_.col = none ∧ (Clear ell3).mat_.val = none) :=
  ConvertFrom_failure_destination ell3 (Clear ell3) (.unknown true .CSR 4 3 3) (by decide)

/-! ## The shape invariant `nnz == max_row * nrow` -/

theorem toInt32_eq_self (x : Int) (hlo : -2147483648 ≤ x) (hhi : x < 2147483648) :
    toInt32 x = x := by
  unfold toInt32
  omega

theorem zipWith_range_map (f : α → α → α) (d : α) (y : List α) (g : Nat → α) :
    List.zipWith f y ((List.range y.length).map g)
      = (List.range y.length).map (fun r => f (y.getD r d) (g r)) := by
  apply List.ext_getElem
  · simp
  · intro i h1 h2
    simp at h1
    simp [List.getD_eq_getElem, h1]

/-- C3: for every non-empty container `A` (`nnz > 0`, non-null buffers),
every accelerator vector `x` of length `ncol`, every scalar `alpha` and
every accelerator vector `y0` of length `nrow`, `Apply(x, .)` produces one
vector `z` whatever the prior contents of its output, and
`ApplyAdd(x, alpha, y)` started from `y = y0` leaves `y = y0 + alpha * z`
entry by entry.  For the 3x3 scenario with `x = [1, 1, 1]`,
`y0 = [10, 10, 10]` and `alpha = 2` the result is `[12, 20, 18]`. -/
theorem ApplyAdd_eq_add_scaled_Apply [CommRing α] (A : HIPAcceleratorMatrixELL α)
    (x y0 : List α) (alpha : α)
    (hnnz : A.nnz_ > 0) (hval : A.mat_.val ≠ none) (hcol : A.mat_.col ≠ none)
    (hx : (x.length : Int) = A.ncol_) (hy : (y0.length : Int) = A.nrow_) :
    (∃ z : List α, z.length = y0.length
        ∧ (∀ y1 : List α, y1.length = y0.length →
             Apply A (.hip x) (.hip y1) = some (.hip z))
        ∧ ApplyAdd A (.hip x) alpha (.hip y0)
            = some (.hip (List.zipWith (fun y z => y + alpha * z) y0 z)))
      ∧ ApplyAdd ell3 (.hip [1, 1, 1]) 2 (.hip [10, 10, 10]) = some (.hip [12, 20, 18]) := by
  refine ⟨?_, by decide⟩
  obtain ⟨v, hv⟩ := Option.ne_none_iff_exists'.mp hval
  obtain ⟨c, hc⟩ := Option.ne_none_iff_exists'.mp hcol
  have hm : A.nrow_.toNat = y0.length := by omega
  refine ⟨(List.range y0.length).map
      (ellRowDot A.nrow_.toNat A.mat_.max_row.toNat v c x), by simp, ?_, ?_⟩
  · intro y1 hy1
    have hpre : (BaseVector.hip x).get_size ≥ 0 ∧ (BaseVector.hip y1).get_size ≥ 0
        ∧ (BaseVector.hip x).get_size = A.ncol_ ∧ (BaseVector.hip y1).get_size = A.nrow_ := by
      simp only [BaseVector.get_size]
      omega
    simp only [Apply, if_pos hnnz, if_pos hpre, hipsparseTellmv, hv, hc, hm]
    simp [← hy1]
  · have hpre : (BaseVector.hip x).get_size ≥ 0 ∧ (BaseVector.hip y0).get_size ≥ 0
        ∧ (BaseVector.hip x).get_size = A.ncol_ ∧ (BaseVector.hip y0).get_size = A.nrow_ := by
      simp only [BaseVector.get_size]
      omega
    simp only [ApplyAdd, if_pos hnnz, if_pos hpre, hipsparseTellmv, hv, hc, hm]
    rw [zipWith_range_map (fun y z => y + alpha * z) 0]
    simp [add_comm]

/-- Instance of C3 on the container of the 3x3 scenario. -/
theorem ApplyAdd_eq_add_scaled_Apply_witness :
    (∃ z : List Int, z.length = 3
        ∧ (∀ y1 : List Int, y1.length = 3 → Apply ell3 (.hip [1, 1, 1]) (.hip y1) = some (.hip z))
        ∧ ApplyAdd ell3 (.hip [1, 1, 1]) 2 (.hip [10, 10, 10])
            = some (.hip (List.zipWith (fun y z => y + 2 * z) [10, 10, 10] z)))
      ∧ ApplyAdd ell3 (.hip [1, 1, 1]) 2 (.hip [10, 10, 10]) = some (.hip [12, 20, 18]) :=
  ApplyAdd_eq_add_scaled_Apply ell3 [1, 1, 1] [10, 10, 10] 2
    (by decide) (by decide) (by decide) (by decide) (by decide)

/-! ## Conversion from CSR -/

theorem foldl_max_ge_init (ls : List Int) (l : Int) : l ≤ ls.foldl max l := by
  induction ls generalizing l with
  | nil => simp
  | cons a as ih =>
      simp only [List.foldl_cons]
      exact le_trans (le_max_left l a) (ih (max l a))

theorem foldl_max_ge (ls : List Int) (l x : Int) (hx : x ∈ l :: ls) : x ≤ ls.foldl max l := by
  induction ls generalizing l with
  | nil =>
      simp at hx
      simp [hx]
  | cons a as ih =>
      simp only [List.foldl_cons]
      rcases List.mem_cons.mp hx with h | h
      · rw [h]
        exact le_trans (le_max_left l a) (foldl_max_ge_init as (max l a))
      · rcases List.mem_cons.mp h with h | h
        · rw [h]
          exact le_trans (le_max_right l a) (foldl_max_ge_init as (max l a))
        · exact ih (max l a) (List.mem_cons_of_mem _ h)

theorem foldl_max_mem (ls : List Int) (l : Int) : ls.foldl max l ∈ l :: ls := by
  induction ls generalizing l with
  | nil => simp
  | cons a as ih =>
      simp only [List.foldl_cons]
      rcases List.mem_cons.mp (ih (max l a)) with h | h
      · rw [h]
        rcases max_choice l a with hm | hm
        · rw [hm]; simp
        · rw [hm]; simp
      · exact List.mem_cons_of_mem _ (List.mem_cons_of_mem _ h)

theorem hipsparseXcsr2ellWidth_ge (m : Int) (off : List Int) (r : Nat) (hr : r < m.toNat) :
    csrRowLen off r ≤ hipsparseXcsr2ellWidth m off := by
  have hmem : csrRowLen off r ∈ (List.range m.toNat).map (csrRowLen off) :=
    List.mem_map.mpr ⟨r, List.mem_range.mpr hr, rfl⟩
  unfold hipsparseXcsr2ellWidth
  cases hL : (List.range m.toNat).map (csrRowLen off) with
  | nil =>
      rw [hL] at hmem
      simp at hmem
  | cons l ls =>
      rw [hL] at hmem
      exact foldl_max_ge ls l _ hmem

theorem hipsparseXcsr2ellWidth_attained (m : Int) (off : List Int) (hm : 0 < m.toNat) :
    ∃ r, r < m.toNat ∧ csrRowLen off r = hipsparseXcsr2ellWidth m off := by
  unfold hipsparseXcsr2ellWidth
  cases hL : (List.range m.toNat).map (csrRowLen off) with
  | nil =>
      have := congrArg List.length hL
      simp at this
      omega
  | cons l ls =>
      have hmem : ls.foldl max l ∈ (List.range m.toNat).map (csrRowLen off) := by
        rw [hL]
        exact foldl_max_mem ls l
      obtain ⟨r, hr, hreq⟩ := List.mem_map.mp hmem
      exact ⟨r, List.mem_range.mp hr, hreq⟩

theorem offsets_telescope (off : List Int) (n : Nat)
    (h : ∀ r < n, csrRowLen off r ≤ 0) : off.getD n 0 ≤ off.getD 0 0 := by
  induction n with
  | zero => exact le_refl _
  | succ k ih =>
      have h1 := h k (Nat.lt_succ_self k)
      have h2 := ih (fun r hr => h r (Nat.lt_succ_of_lt hr))
      unfold csrRowLen at h1
      omega

theorem hipsparseXcsr2ellWidth_pos (csr : HIPAcceleratorMatrixCSR α) (hnnz : csr.nnz_ > 0)
    (hoff : ValidRowOffsets csr) :
    0 < hipsparseXcsr2ellWidth csr.nrow_ csr.mat_.row_offset := by
  obtain ⟨_, h0, hn, _⟩ := hoff
  by_contra hneg
  push_neg at hneg
  have hall : ∀ r < csr.nrow_.toNat, csrRowLen csr.mat_.row_offset r ≤ 0 := fun r hr =>
    le_trans (hipsparseXcsr2ellWidth_ge csr.nrow_ csr.mat_.row_offset r hr) hneg
  have := offsets_telescope csr.mat_.row_offset csr.nrow_.toNat hall
  omega

theorem ValidRowOffsets_nrow_pos (csr : HIPAcceleratorMatrixCSR α) (hnnz : csr.nnz_ > 0)
    (hoff : ValidRowOffsets csr) : csr.nrow_ > 0 := by
  obtain ⟨_, h0, hn, _⟩ := hoff
  by_contra hneg
  have hz : csr.nrow_.toNat = 0 := by omega
  rw [hz] at hn
  omega

theorem AllocateELL_pos [Zero α] (s : HIPAcceleratorMatrixELL α) (nnz nrow ncol max_row : Int)
    (hnnz : nnz > 0) (hnrow : nrow ≥ 0) (hncol : ncol ≥ 0) (hmax : max_row ≥ 0)
    (hshape : toInt32 nnz = toInt32 (max_row * nrow)) :
    AllocateELL s nnz nrow ncol max_row
      = some { mat_ := { val := some (List.replicate nnz.toNat 0),
                         col := some (List.replicate nnz.toNat 0), max_row := max_row },
               nrow_ := nrow, ncol_ := ncol, nnz_ := nnz } := by
  simp only [AllocateELL, allocate_zero_hip]
  rw [if_pos ⟨hnnz.le, hncol, hnrow, hmax⟩, if_pos hnnz, if_pos hshape]

theorem ConvertFrom_csr_eq [Zero α] (this : HIPAcceleratorMatrixELL α)
    (csr : HIPAcceleratorMatrixCSR α) (hnnz : csr.nnz_ > 0) (hnrow : csr.nrow_ > 0)
    (hncol : csr.ncol_ > 0)
    (hw : 0 < hipsparseXcsr2ellWidth csr.nrow_ csr.mat_.row_offset)
    (hfit : hipsparseXcsr2ellWidth csr.nrow_ csr.mat_.row_offset * csr.nrow_ < 2147483648) :
    ConvertFrom this (.hipCSR csr)
      = some (true,
          { mat_ :=
              { val := some ((List.range
                    ((hipsparseXcsr2ellWidth csr.nrow_ csr.mat_.row_offset).toNat
                      * csr.nrow_.toNat)).map
                    (ellSlotVal csr.nrow_.toNat csr.mat_.val csr.mat_.row_offset)),
                col := some ((List.range
                    ((hipsparseXcsr2ellWidth csr.nrow_ csr.mat_.row_offset).toNat
                      * csr.nrow_.toNat)).map
                    (ellSlotCol csr.nrow_.toNat csr.mat_.col csr.mat_.row_offset)),
                max_row := hipsparseXcsr2ellWidth csr.nrow_ csr.mat_.row_offset },
            nrow_ := csr.nrow_, ncol_ := csr.ncol_,
            nnz_ := hipsparseXcsr2ellWidth csr.nrow_ csr.mat_.row_offset * csr.nrow_ }) := by
  have hne : (BaseMatrix.hipCSR csr).get_nnz ≠ 0 := by
    simp only [BaseMatrix.get_nnz]
    omega
  have hprod : hipsparseXcsr2ellWidth csr.nrow_ csr.mat_.row_offset * csr.nrow_ > 0 :=
    mul_pos hw hnrow
  have htoNat : (hipsparseXcsr2ellWidth csr.nrow_ csr.mat_.row_offset * csr.nrow_).toNat
      = (hipsparseXcsr2ellWidth csr.nrow_ csr.mat_.row_offset).toNat * csr.nrow_.toNat := by
    obtain ⟨W, hW⟩ := Int.eq_ofNat_of_zero_le hw.le
    obtain ⟨N, hN⟩ := Int.eq_ofNat_of_zero_le hnrow.le
    rw [hW, hN]
    norm_cast
  have hwrap : toInt32 (hipsparseXcsr2ellWidth csr.nrow_ csr.mat_.row_offset * csr.nrow_)
      = hipsparseXcsr2ellWidth csr.nrow_ csr.mat_.row_offset * csr.nrow_ :=
    toInt32_eq_self _ (by omega) hfit
  simp only [ConvertFrom, if_neg hne, if_pos (And.intro hnrow (And.intro hncol hnnz)), hwrap]
  rw [AllocateELL_pos _ _ _ _ _ hprod hnrow.le hncol.le hw.le rfl]
  simp only [hipsparseTcsr2ell, htoNat, List.length_replicate, le_refl, and_self, if_true]
  simp

theorem width_mul_nrow_fits (csr : HIPAcceleratorMatrixCSR α) (hnrow : csr.nrow_ > 0)
    (hfit : ∀ r, r < csr.nrow_.toNat →
      csrRowLen csr.mat_.row_offset r * csr.nrow_ < 2147483648) :
    hipsparseXcsr2ellWidth csr.nrow_ csr.mat_.row_offset * csr.nrow_ < 2147483648 := by
  obtain ⟨r, hr, hreq⟩ :=
    hipsparseXcsr2ellWidth_attained csr.nrow_ csr.mat_.row_offset (by omega)
  rw [← hreq]
  exact hfit r hr

/-- C1, as stated, fails: `csrBig` is a CSR source with `nnz > 0`,
`nrow > 0`, `ncol > 0` and a valid row-offset array, whose widest row has
2^30 entries; the `int` product `max_row * nrow = 2^30 * 2` wraps around to
`-2^31`, `AllocateELL` fails its assertion `nnz >= 0` and `ConvertFrom`
ends in a fatal error instead of returning success. -/
theorem ConvertFrom_csr_overflow_fatal :
    csrBig.nnz_ > 0 ∧ csrBig.nrow_ > 0 ∧ csrBig.ncol_ > 0 ∧ ValidRowOffsets csrBig
      ∧ hipsparseXcsr2ellWidth csrBig.nrow_ csrBig.mat_.row_offset = 1073741824
      ∧ toInt32 (1073741824 * csrBig.nrow_) = -2147483648
      ∧ ConvertFrom (HIPAcceleratorMatrixELL.fresh : HIPAcceleratorMatrixELL Int)
          (.hipCSR csrBig) = none := by
  decide

/-- C1, amended: for every CSR source with `nnz > 0`, `nrow > 0`,
`ncol > 0`, a valid row-offset array and every row length times `nrow`
below `2^31` (so that `max_row * nrow` fits in an `int`), and whatever the
prior state of the destination, `ConvertFrom` returns `true` and leaves the
destination with the source's `nrow` and `ncol`, with `max_row` the maximum
over all rows `r` of `row_offset[r+1] - row_offset[r]` (an upper bound of
every row length that one row attains), and with `nnz == max_row * nrow`.
For the 3x3 scenario with row lengths 1, 2, 1 this gives `max_row = 2` and
`nnz = 6`. -/
theorem ConvertFrom_csr_shape [Zero α] (this : HIPAcceleratorMatrixELL α)
    (csr : HIPAcceleratorMatrixCSR α) (hnnz : csr.nnz_ > 0) (hnrow : csr.nrow_ > 0)
    (hncol : csr.ncol_ > 0) (hoff : ValidRowOffsets csr)
    (hfit : ∀ r, r < csr.nrow_.toNat →
      csrRowLen csr.mat_.row_offset r * csr.nrow_ < 2147483648) :
    (∃ t, ConvertFrom this (.hipCSR csr) = some (true, t)
        ∧ t.nrow_ = csr.nrow_ ∧ t.ncol_ = csr.ncol_
        ∧ (∀ r, r < csr.nrow_.toNat → csrRowLen csr.mat_.row_offset r ≤ t.mat_.max_row)
        ∧ (∃ r, r < csr.nrow_.toNat ∧ csrRowLen csr.mat_.row_offset r = t.mat_.max_row)
        ∧ t.nnz_ = t.mat_.max_row * csr.nrow_)
      ∧ (∃ t, ConvertFrom (HIPAcceleratorMatrixELL.fresh : HIPAcceleratorMatrixELL Int)
                (.hipCSR csr3) = some (true, t)
          ∧ t.mat_.max_row = 2 ∧ t.nnz_ = 6) := by
  refine ⟨?_, ⟨ell3, by decide, by decide, by decide⟩⟩
  have hw := hipsparseXcsr2ellWidth_pos csr hnnz hoff
  have hprod := width_mul_nrow_fits csr hnrow hfit
  refine ⟨_, ConvertFrom_csr_eq this csr hnnz hnrow hncol hw hprod, rfl, rfl, ?_, ?_, rfl⟩
  · intro r hr
    exact hipsparseXcsr2ellWidth_ge csr.nrow_ csr.mat_.row_offset r hr
  · exact hipsparseXcsr2ellWidth_attained csr.nrow_ csr.mat_.row_offset (by omega)

/-- Instance of C1 amended: the CSR matrix of the 3x3 scenario converted
into a container that already holds a 2x5 matrix. -/
theorem ConvertFrom_csr_shape_witness :
    (∃ t, ConvertFrom ell2x5 (.hipCSR csr3) = some (true, t)
        ∧ t.nrow_ = 3 ∧ t.ncol_ = 3
        ∧ (∀ r, r < 3 → csrRowLen [0, 1, 3, 4] r ≤ t.mat_.max_row)
        ∧ (∃ r, r < 3 ∧ csrRowLen [0, 1, 3, 4] r = t.mat_.max_row)
        ∧ t.nnz_ = t.mat_.max_row * 3)
      ∧ (∃ t, ConvertFrom (HIPAcceleratorMatrixELL.fresh : HIPAcceleratorMatrixELL Int)
                (.hipCSR csr3) = some (true, t)
          ∧ t.mat_.max_row = 2 ∧ t.nnz_ = 6) :=
  ConvertFrom_csr_shape ell2x5 csr3 (by decide) (by decide) (by decide) (by decide)
    (by decide)

theorem slot_lt (W N k r : Nat) (hk : k < W) (hr : r < N) : k * N + r < W * N := by
  have h1 : (k + 1) * N ≤ W * N := Nat.mul_le_mul_right N hk
  have h2 : (k + 1) * N = k * N + N := by ring
  omega

theorem slot_div (N k r : Nat) (hr : r < N) : (k * N + r) / N = k := by
  rw [Nat.add_comm, Nat.add_mul_div_right _ _ (by omega : 0 < N), Nat.div_eq_of_lt hr]
  simp

theorem slot_mod (N k r : Nat) (hr : r < N) : (k * N + r) % N = r := by
  rw [Nat.add_comm, Nat.add_mul_mod_self_right, Nat.mod_eq_of_lt hr]

theorem sum_range_ite [AddCommMonoid α] (F : Nat → α) (n W : Nat) (h : n ≤ W) :
    ((List.range W).map (fun k => if k < n then F k else 0)).sum
      = ((List.range n).map F).sum := by
  induction W with
  | zero =>
      have : n = 0 := by omega
      subst this
      simp
  | succ V ih =>
      rcases Nat.lt_or_ge V n with hlt | hge
      · have hn : n = V + 1 := by omega
        subst hn
        congr 1
        apply List.map_congr_left
        intro k hk
        rw [if_pos (List.mem_range.mp hk)]
      · rw [List.range_succ, List.map_append, List.sum_append, ih hge]
        simp [Nat.not_lt.mpr hge]

theorem ellRowDot_convert [CommRing α] (csr : HIPAcceleratorMatrixCSR α) (x : List α)
    (r : Nat) (hr : r < csr.nrow_.toNat) :
    ellRowDot csr.nrow_.toNat (hipsparseXcsr2ellWidth csr.nrow_ csr.mat_.row_offset).toNat
        ((List.range ((hipsparseXcsr2ellWidth csr.nrow_ csr.mat_.row_offset).toNat
            * csr.nrow_.toNat)).map
          (ellSlotVal csr.nrow_.toNat csr.mat_.val csr.mat_.row_offset))
        ((List.range ((hipsparseXcsr2ellWidth csr.nrow_ csr.mat_.row_offset).toNat
            * csr.nrow_.toNat)).map
          (ellSlotCol csr.nrow_.toNat csr.mat_.col csr.mat_.row_offset))
        x r
      = csrRowDot csr x r := by
  have hlen : (csrRowLen csr.mat_.row_offset r).toNat
      ≤ (hipsparseXcsr2ellWidth csr.nrow_ csr.mat_.row_offset).toNat :=
    Int.toNat_le_toNat (hipsparseXcsr2ellWidth_ge csr.nrow_ csr.mat_.row_offset r hr)
  generalize hipsparseXcsr2ellWidth csr.nrow_ csr.mat_.row_offset = w at hlen
  unfold ellRowDot csrRowDot ELL_IND
  rw [List.range'_eq_map_range, List.map_map,
    ← sum_range_ite _ (csrRowLen csr.mat_.row_offset r).toNat w.toNat hlen]
  congr 1
  apply List.map_congr_left
  intro k hk
  have hk := List.mem_range.mp hk
  have hp := slot_lt w.toNat csr.nrow_.toNat k r hk hr
  have hcond : ((k : Int) < csrRowLen csr.mat_.row_offset r)
      ↔ k < (csrRowLen csr.mat_.row_offset r).toNat := Int.lt_toNat.symm
  simp only [List.getD_eq_getElem?_getD, List.getElem?_map, List.getElem?_range hp,
    Option.map_some', Option.getD_some, ellSlotVal, ellSlotCol,
    slot_div _ k r hr, slot_mod _ k r hr, Function.comp_apply]
  by_cases hc : k < (csrRowLen csr.mat_.row_offset r).toNat
  · simp [hcond.mpr hc, hc]
  · simp [mt hcond.mp hc, hc]

theorem WellFormedCSR_ncol_pos (csr : HIPAcceleratorMatrixCSR α) (hwf : WellFormedCSR csr) :
    csr.ncol_ > 0 := by
  obtain ⟨hnnz, _, hclen, _, hrange⟩ := hwf
  cases hcol : csr.mat_.col with
  | nil =>
      rw [hcol] at hclen
      simp at hclen
      omega
  | cons c cs =>
      have := hrange c (by rw [hcol]; exact List.mem_cons_self c cs)
      omega

/-- C2, as stated, fails: `csrBig` is a well-formed CSR matrix (`nnz > 0`,
valid non-decreasing row offsets, `nnz` column indices, all in `[0, ncol)`)
and `x`, `y` have lengths `ncol` and `nrow`; the `int` product
`max_row * nrow = 2^30 * 2` wraps around to `-2^31` and `ConvertFrom` ends
in a fatal error, so no product is computed. -/
theorem ConvertFrom_Apply_overflow_fatal :
    WellFormedCSR csrBig
      ∧ ((List.replicate 1073741824 (1 : Int)).length : Int) = csrBig.ncol_
      ∧ (([0, 0] : List Int).length : Int) = csrBig.nrow_
      ∧ ConvertFrom ell3 (.hipCSR csrBig) = none := by
  refine ⟨⟨by decide, by decide, ?_, ?_, ?_⟩, ?_, by decide, by decide⟩
  · simp only [csrBig, List.length_map, List.length_range]
    rfl
  · simp only [csrBig, List.length_replicate]
    rfl
  · intro c hc
    simp only [csrBig] at hc
    obtain ⟨k, hk, hkc⟩ := List.mem_map.mp hc
    have hk2 := List.mem_range.mp hk
    simp only [csrBig]
    rw [← hkc]
    constructor
    · exact Int.ofNat_nonneg k
    · exact Int.ofNat_lt.mpr hk2
  · simp only [csrBig, List.length_replicate]
    rfl

/-- C2, amended: for every well-formed CSR matrix `A` (`nnz > 0`, valid
non-decreasing row offsets, column indices in `[0, ncol)`) in which every
row length times `nrow` is below `2^31` (so that `max_row * nrow` fits in an
`int`), every accelerator vector `x` of length `ncol` and every accelerator
vector `y` of length `nrow`, whatever the prior state of the destination and
the prior contents of `y`, `ConvertFrom` returns `true` and `Apply(x, y)` on
the converted container leaves, for every row `r`, `y[r]` equal to the sum
over the CSR entries `j` of row `r` of `val[j] * x[col[j]]`: padding slots
contribute nothing.  For the 3x3 scenario and `x = [1, 1, 1]` the result is
`y = [1, 5, 4]`. -/
theorem ConvertFrom_Apply_eq_csr_product [CommRing α] (this : HIPAcceleratorMatrixELL α)
    (csr : HIPAcceleratorMatrixCSR α) (x y : List α) (hwf : WellFormedCSR csr)
    (hfit : ∀ r, r < csr.nrow_.toNat →
      csrRowLen csr.mat_.row_offset r * csr.nrow_ < 2147483648)
    (hx : (x.length : Int) = csr.ncol_) (hy : (y.length : Int) = csr.nrow_) :
    (∃ t, ConvertFrom this (.hipCSR csr) = some (true, t)
        ∧ Apply t (.hip x) (.hip y)
            = some (.hip ((List.range csr.nrow_.toNat).map (csrRowDot csr x))))
      ∧ (∃ t, ConvertFrom (HIPAcceleratorMatrixELL.fresh : HIPAcceleratorMatrixELL Int)
                (.hipCSR csr3) = some (true, t)
          ∧ Apply t (.hip [1, 1, 1]) (.hip [0, 0, 0]) = some (.hip [1, 5, 4])) := by
  refine ⟨?_, ⟨ell3, by decide, by decide⟩⟩
  have hnnz : csr.nnz_ > 0 := hwf.1
  have hoff : ValidRowOffsets csr := hwf.2.1
  have hnrow := ValidRowOffsets_nrow_pos csr hnnz hoff
  have hncol := WellFormedCSR_ncol_pos csr hwf
  have hw := hipsparseXcsr2ellWidth_pos csr hnnz hoff
  have hfit2 := width_mul_nrow_fits csr hnrow hfit
  refine ⟨_, ConvertFrom_csr_eq this csr hnnz hnrow hncol hw hfit2, ?_⟩
  have hprod : hipsparseXcsr2ellWidth csr.nrow_ csr.mat_.row_offset * csr.nrow_ > 0 :=
    mul_pos hw hnrow
  have hpre : (BaseVector.hip x).get_size ≥ 0 ∧ (BaseVector.hip y).get_size ≥ 0
      ∧ (BaseVector.hip x).get_size = csr.ncol_ ∧ (BaseVector.hip y).get_size = csr.nrow_ := by
    simp only [BaseVector.get_size]
    omega
  have hm : csr.nrow_.toNat = y.length := by omega
  simp only [Apply, if_pos hprod, if_pos hpre, hipsparseTellmv]
  have hdrop : y.drop csr.nrow_.toNat = [] := by
    rw [hm]
    exact List.drop_length y
  rw [hdrop, List.append_nil]
  congr 2
  apply List.map_congr_left
  intro r hr
  rw [ellRowDot_convert csr x r (List.mem_range.mp hr)]
  simp

/-- Instance of C2 amended: the 3x3 scenario with `x = [1, 1, 1]`, converted
into a container that already holds a 2x5 matrix, with `y = [7, 8, 9]`
before the call. -/
theorem ConvertFrom_Apply_eq_csr_product_witness :
    (∃ t, ConvertFrom ell2x5 (.hipCSR csr3) = some (true, t)
        ∧ Apply t (.hip [1, 1, 1]) (.hip [7, 8, 9])
            = some (.hip ((List.range 3).map (csrRowDot csr3 [1, 1, 1]))))
      ∧ (∃ t, ConvertFrom (HIPAcceleratorMatrixELL.fresh : HIPAcceleratorMatrixELL Int)
                (.hipCSR csr3) = some (true, t)
          ∧ Apply t (.hip [1, 1, 1]) (.hip [0, 0, 0]) = some (.hip [1, 5, 4])) :=
  ConvertFrom_Apply_eq_csr_product ell2x5 csr3 [1, 1, 1] [7, 8, 9]
    (by decide) (by decide) (by decide) (by decide)

/-! ## Product on an empty container and length checks -/

/-- C11: for every container with `nnz == 0`, every input vector `x`, every
scalar `alpha` and every output vector `y` (of any length, on the host or on
the accelerator), `Apply(x, y)` and `ApplyAdd(x, alpha, y)` return without a
fatal error and leave `y` exactly as it was. -/
theorem Apply_ApplyAdd_empty [CommRing α] (A : HIPAcceleratorMatrixELL α)
    (x y : BaseVector α) (alpha : α) (hnnz : A.nnz_ = 0) :
    Apply A x y = some y ∧ ApplyAdd A x alpha y = some y := by
  have h0 : ¬ A.nnz_ > 0 := by omega
  constructor
  · simp only [Apply, if_neg h0]
  · simp only [ApplyAdd, if_neg h0]

/-- Instance of C11: a freshly constructed container, a host input of length
1 and an accelerator output `[7, 8, 9]`. -/
theorem Apply_ApplyAdd_empty_witness :
    Apply (HIPAcceleratorMatrixELL.fresh : HIPAcceleratorMatrixELL Int) (.host [5])
        (.hip [7, 8, 9]) = some (.hip [7, 8, 9])
      ∧ ApplyAdd (HIPAcceleratorMatrixELL.fresh : HIPAcceleratorMatrixELL Int) (.host [5]) 2
        (.hip [7, 8, 9]) = some (.hip [7, 8, 9]) :=
  Apply_ApplyAdd_empty HIPAcceleratorMatrixELL.fresh (.host [5]) (.hip [7, 8, 9]) 2
    (by decide)

/-- C12, as stated, fails: on a freshly constructed container (`nnz == 0`,
`nrow == ncol == 0`) `Apply` and `ApplyAdd` with `x` of length 2 and `y` of
length 3 return normally, although neither length matches. -/
theorem Apply_empty_skips_length_checks :
    (HIPAcceleratorMatrixELL.fresh : HIPAcceleratorMatrixELL Int).ncol_ = 0
      ∧ (HIPAcceleratorMatrixELL.fresh : HIPAcceleratorMatrixELL Int).nrow_ = 0
      ∧ Apply (HIPAcceleratorMatrixELL.fresh : HIPAcceleratorMatrixELL Int) (.hip [1, 1])
          (.hip [7, 8, 9]) = some (.hip [7, 8, 9])
      ∧ ApplyAdd (HIPAcceleratorMatrixELL.fresh : HIPAcceleratorMatrixELL Int) (.hip [1, 1]) 2
          (.hip [7, 8, 9]) = some (.hip [7, 8, 9]) := by
  decide

/-- C12, amended: for every container with `nnz > 0`, `Apply(x, y)` and
`ApplyAdd(x, alpha, y)` end in a fatal error whenever the length of `x`
differs from `ncol` or the length of `y` differs from `nrow`; so a call that
returns has `x` of length `ncol` and `y` of length `nrow`. -/
theorem Apply_ApplyAdd_length_mismatch_fatal [CommRing α] (A : HIPAcceleratorMatrixELL α)
    (x y : BaseVector α) (alpha : α) (hnnz : A.nnz_ > 0) :
    ((x.get_size ≠ A.ncol_ ∨ y.get_size ≠ A.nrow_) →
        Apply A x y = none ∧ ApplyAdd A x alpha y = none)
      ∧ (Apply A x y ≠ none → x.get_size = A.ncol_ ∧ y.get_size = A.nrow_)
      ∧ (ApplyAdd A x alpha y ≠ none → x.get_size = A.ncol_ ∧ y.get_size = A.nrow_) := by
  have hfatal : (x.get_size ≠ A.ncol_ ∨ y.get_size ≠ A.nrow_) →
      Apply A x y = none ∧ ApplyAdd A x alpha y = none := by
    intro hmis
    have hpre : ¬ (x.get_size ≥ 0 ∧ y.get_size ≥ 0 ∧ x.get_size = A.ncol_
        ∧ y.get_size = A.nrow_) := by
      rintro ⟨_, _, hx, hy⟩
      rcases hmis with h | h
      · exact h hx
      · exact h hy
    constructor
    · simp only [Apply, if_pos hnnz, if_neg hpre]
    · simp only [ApplyAdd, if_pos hnnz, if_neg hpre]
  refine ⟨hfatal, ?_, ?_⟩
  · intro hret
    by_contra hmis
    exact hret (hfatal (by tauto)).1
  · intro hret
    by_contra hmis
    exact hret (hfatal (by tauto)).2

/-- Instance of C12 amended: the container of the 3x3 scenario with `x` of
length 2. -/
theorem Apply_ApplyAdd_length_mismatch_fatal_witness :
    Apply ell3 (.hip [1, 1]) (.hip [7, 8, 9]) = none
      ∧ ApplyAdd ell3 (.hip [1, 1]) 2 (.hip [7, 8, 9]) = none :=
  (Apply_ApplyAdd_length_mismatch_fatal ell3 (.hip [1, 1]) (.hip [7, 8, 9]) 2
    (by decide)).1 (Or.inl (by decide))

end rocalution
